import Mathlib

/-!
# Verification of the 2048 board engine (src/mini-app/components/2048-game.tsx)

Shallow embedding of the pure board-transformation functions of the game
component: `compress`, `merge`, `transpose`, `reverse`, the four move
functions, `hasMoves`, and `addRandomTile`.  Boards are row-major lists of
rows of natural-number tile values, `0` denoting an empty cell, exactly as
in the source (`type Board = number[][]`).
-/

deriving instance DecidableEq for Except

namespace Game2048

/-- `BOARD_SIZE = 4` from the source. -/
def BOARD_SIZE : Nat := 4

/-- `type Board = number[][]`: row-major grid of tile values, 0 = empty
(a transparent type alias, as in the source). -/
abbrev Board := List (List Nat)

/-- Cell access `board[r][c]`; out-of-range access is defaulted to 0
(all claims are stated on boards where every access is in range). -/
def cell (b : Board) (r c : Nat) : Nat := (b.getD r []).getD c 0

/-- `compress`: drop the zero entries of a row, keeping order, then pad
with zeros on the right until the length is `BOARD_SIZE` (the source's
`while (newRow.length < BOARD_SIZE) newRow.push(0)`). -/
def compress (row : List Nat) : List Nat :=
  let newRow := row.filter (fun v => v ≠ 0)
  newRow ++ List.replicate (BOARD_SIZE - newRow.length) 0

/-- One iteration of the `merge` loop body at index `i`: if `newRow[i]` is
non-zero and equals `newRow[i+1]`, double `newRow[i]`, zero `newRow[i+1]`,
and report the doubled value as the score contribution of this step. -/
def mergeStep (row : List Nat) (i : Nat) : List Nat × Nat :=
  if row.getD i 0 ≠ 0 ∧ row.getD i 0 = row.getD (i + 1) 0 then
    ((row.set i (2 * row.getD i 0)).set (i + 1) 0, 2 * row.getD i 0)
  else
    (row, 0)

/-- `merge`: run the loop `for (let i = 0; i < BOARD_SIZE - 1; i++)` over
the row, accumulating the score delta, then `compress` the result. -/
def merge (row : List Nat) : List Nat × Nat :=
  let r := (List.range (BOARD_SIZE - 1)).foldl
    (fun (acc : List Nat × Nat) i =>
      let s := mergeStep acc.1 i
      (s.1, acc.2 + s.2))
    (row, 0)
  (compress r.1, r.2)

/-- `transpose`: `board[0].map((_, i) => board.map(row => row[i]))`. -/
def transpose (b : Board) : Board :=
  (List.range (b.headD []).length).map (fun i => b.map (fun row => row.getD i 0))

/-- `reverse`: reverse each row of the board. -/
def reverse (b : Board) : Board :=
  b.map List.reverse

/-- `moveLeft`: compress and merge every row, summing the score deltas. -/
def moveLeft (b : Board) : Board × Nat :=
  let rows := b.map (fun row => merge (compress row))
  (rows.map Prod.fst, (rows.map Prod.snd).sum)

/-- `moveRight`: reverse, move left, reverse back. -/
def moveRight (b : Board) : Board × Nat :=
  let m := moveLeft (reverse b)
  (reverse m.1, m.2)

/-- `moveUp`: transpose, move left, transpose back. -/
def moveUp (b : Board) : Board × Nat :=
  let m := moveLeft (transpose b)
  (transpose m.1, m.2)

/-- `moveDown`: transpose, move right, transpose back. -/
def moveDown (b : Board) : Board × Nat :=
  let m := moveRight (transpose b)
  (transpose m.1, m.2)

/-- `hasMoves`: scan all cells; a move exists if some cell is 0, or equals
its right neighbour (checked when `c < BOARD_SIZE - 1`), or equals the
cell below it (checked when `r < BOARD_SIZE - 1`). -/
def hasMoves (b : Board) : Bool :=
  (List.range BOARD_SIZE).any fun r =>
    (List.range BOARD_SIZE).any fun c =>
      (cell b r c == 0)
      || (decide (c < BOARD_SIZE - 1) && (cell b r c == cell b r (c + 1)))
      || (decide (r < BOARD_SIZE - 1) && (cell b r c == cell b (r + 1) c))

/-- The row-major list of coordinates of empty cells, as collected by the
`forEach` loops of `addRandomTile`. -/
def emptyCells (b : Board) : List (Nat × Nat) :=
  ((List.range b.length).map (fun r =>
    ((List.range (b.getD r []).length).filter
      (fun c => cell b r c == 0)).map (fun c => (r, c)))).flatten

/-- `addRandomTile`, with the two random draws made explicit: `k` selects
the empty cell (the source draws `Math.floor(Math.random() * emptyCells.length)`,
a uniform index below the count, modelled as `k % emptyCells.length`), and
`four` tells whether the 0.1-probability branch was taken (value 4) rather
than the 0.9 branch (value 2).  A board with no empty cell is returned
unchanged. -/
def addRandomTile (b : Board) (k : Nat) (four : Bool) : Board :=
  match emptyCells b with
  | [] => b
  | e :: es =>
    let ec := e :: es
    let p := ec.getD (k % ec.length) e
    let value : Nat := if four then 4 else 2
    b.set p.1 ((b.getD p.1 []).set p.2 value)

/-- The failure modes named by the specification, plus the one the code
actually has: `handleMove`'s `switch` has no `default` case, so an
unrecognised direction leaves `result` undefined and the destructuring
`const { newBoard, scoreDelta } = result` throws a TypeError. -/
inductive EngineError where
  | invalidDirection
  | invalidBoard
  | typeErrorUndefined
deriving DecidableEq

/-- The direction union type `"up" | "down" | "left" | "right"`. -/
inductive Direction where
  | up
  | down
  | left
  | right
deriving DecidableEq

/-- The move dispatch of `handleMove`, over the constrained direction
type: an exhaustive four-way switch. -/
def resolve (b : Board) (d : Direction) : Board × Nat :=
  match d with
  | .up => moveUp b
  | .down => moveDown b
  | .left => moveLeft b
  | .right => moveRight b

/-- The move dispatch of `handleMove` at the level of raw direction
strings: the `switch` matches exactly the four literals and has no
`default`, so any other string leaves `result` undefined and the
subsequent destructuring throws a TypeError, modelled as
`EngineError.typeErrorUndefined`. -/
def resolveStr (b : Board) (d : String) : Except EngineError (Board × Nat) :=
  match d with
  | "up" => .ok (moveUp b)
  | "down" => .ok (moveDown b)
  | "left" => .ok (moveLeft b)
  | "right" => .ok (moveRight b)
  | _ => .error .typeErrorUndefined

/-- Sum of all tile values on the board. -/
def boardSum (b : Board) : Nat := (b.map List.sum).sum

/-! ## Helper lemmas -/

lemma sum_set (l : List Nat) (i a : Nat) (h : i < l.length) :
    (l.set i a).sum + l.getD i 0 = l.sum + a := by
  induction l generalizing i with
  | nil => simp at h
  | cons x xs ih =>
    cases i with
    | zero =>
      simp only [List.set_cons_zero, List.sum_cons, List.getD_cons_zero]
      omega
    | succ j =>
      have hj : j < xs.length := by simpa using h
      have := ih j hj
      simp only [List.set_cons_succ, List.sum_cons, List.getD_cons_succ]
      omega

lemma getD_set_ne {α : Type _} (l : List α) {i j : Nat} (h : i ≠ j) (a d : α) :
    (l.set i a).getD j d = l.getD j d := by
  by_cases hj : j < l.length
  · rw [List.getD_eq_getElem _ _ (by simpa using hj), List.getD_eq_getElem _ _ hj]
    exact List.getElem_set_of_ne h a ..
  · rw [List.getD_eq_default _ _ (by simpa using Nat.le_of_not_lt hj),
      List.getD_eq_default _ _ (Nat.le_of_not_lt hj)]

lemma getD_set_self {α : Type _} (l : List α) {i : Nat} (h : i < l.length) (a d : α) :
    (l.set i a).getD i d = a := by
  rw [List.getD_eq_getElem _ _ (by simpa using h)]
  simp

lemma mergeStep_sum (row : List Nat) (i : Nat) :
    ((mergeStep row i).1).sum = row.sum := by
  unfold mergeStep
  split
  case isTrue hc =>
    obtain ⟨hne, heq⟩ := hc
    have hi1 : i + 1 < row.length := by
      by_contra hlt
      rw [List.getD_eq_default _ _ (Nat.le_of_not_lt hlt)] at heq
      exact hne heq
    have hi : i < row.length := Nat.lt_of_succ_lt hi1
    have h1 := sum_set row i (2 * row.getD i 0) hi
    have h2 := sum_set (row.set i (2 * row.getD i 0)) (i + 1) 0
      (by simpa using hi1)
    rw [getD_set_ne row (show i ≠ i + 1 by omega) _ 0] at h2
    show ((row.set i (2 * row.getD i 0)).set (i + 1) 0).sum = row.sum
    omega
  case isFalse => rfl

lemma mergeStep_length (row : List Nat) (i : Nat) :
    ((mergeStep row i).1).length = row.length := by
  unfold mergeStep
  split <;> simp

lemma filter_ne_zero_sum (l : List Nat) : (l.filter (fun v => v ≠ 0)).sum = l.sum := by
  induction l with
  | nil => rfl
  | cons x xs ih =>
    rw [List.filter_cons]
    by_cases hx : x = 0
    · simpa [hx] using ih
    · simpa [hx] using ih

lemma compress_sum (row : List Nat) : (compress row).sum = row.sum := by
  unfold compress
  rw [List.sum_append, filter_ne_zero_sum]
  simp

lemma compress_length (row : List Nat) (h : row.length ≤ BOARD_SIZE) :
    (compress row).length = BOARD_SIZE := by
  unfold compress
  have := List.length_filter_le (fun v => decide (v ≠ 0)) row
  simp only [List.length_append, List.length_replicate]
  omega

/-- The `merge` loop unrolled: the final row is three `mergeStep`s then a
`compress`. -/
lemma merge_fst (row : List Nat) :
    (merge row).1
      = compress (mergeStep (mergeStep (mergeStep row 0).1 1).1 2).1 := rfl

lemma merge_sum (row : List Nat) : ((merge row).1).sum = row.sum := by
  rw [merge_fst, compress_sum, mergeStep_sum, mergeStep_sum, mergeStep_sum]

lemma merge_length (row : List Nat) (h : row.length ≤ BOARD_SIZE) :
    ((merge row).1).length = BOARD_SIZE := by
  rw [merge_fst]
  apply compress_length
  simp [mergeStep_length, h]

lemma reduceRow_sum (row : List Nat) :
    ((merge (compress row)).1).sum = row.sum := by
  rw [merge_sum, compress_sum]

lemma moveLeft_sum (b : Board) : boardSum (moveLeft b).1 = boardSum b := by
  induction b with
  | nil => rfl
  | cons r t ih =>
    simp only [boardSum, moveLeft, List.map_cons, List.map_map, List.sum_cons] at ih ⊢
    rw [reduceRow_sum]
    omega

lemma reverse_sum (b : Board) : boardSum (reverse b) = boardSum b := by
  unfold boardSum reverse
  rw [List.map_map]
  congr 1
  apply List.map_congr_left
  intro r _
  exact List.sum_reverse r

lemma moveRight_sum (b : Board) : boardSum (moveRight b).1 = boardSum b := by
  unfold moveRight
  simp only
  rw [reverse_sum, moveLeft_sum, reverse_sum]


/-- The scan of `hasMoves` unfolded on an explicit 4x4 board: the
disjunction of the three checks at each of the 16 cells, in scan order
(out-of-range neighbour accesses default to 0 under the guards that the
source's `c < BOARD_SIZE - 1` / `r < BOARD_SIZE - 1` tests turn off). -/
lemma hasMoves_explicit (a0 a1 a2 a3 b0 b1 b2 b3 c0 c1 c2 c3 d0 d1 d2 d3 : Nat) :
    hasMoves [[a0, a1, a2, a3], [b0, b1, b2, b3], [c0, c1, c2, c3], [d0, d1, d2, d3]]
      = (((a0 == 0 || (decide (0 < 3) && (a0 == a1)) || (decide (0 < 3) && (a0 == b0))) || ((a1 == 0 || (decide (1 < 3) && (a1 == a2)) || (decide (0 < 3) && (a1 == b1))) || ((a2 == 0 || (decide (2 < 3) && (a2 == a3)) || (decide (0 < 3) && (a2 == b2))) || ((a3 == 0 || (decide (3 < 3) && (a3 == 0)) || (decide (0 < 3) && (a3 == b3))) || false)))) || (((b0 == 0 || (decide (0 < 3) && (b0 == b1)) || (decide (1 < 3) && (b0 == c0))) || ((b1 == 0 || (decide (1 < 3) && (b1 == b2)) || (decide (1 < 3) && (b1 == c1))) || ((b2 == 0 || (decide (2 < 3) && (b2 == b3)) || (decide (1 < 3) && (b2 == c2))) || ((b3 == 0 || (decide (3 < 3) && (b3 == 0)) || (decide (1 < 3) && (b3 == c3))) || false)))) || (((c0 == 0 || (decide (0 < 3) && (c0 == c1)) || (decide (2 < 3) && (c0 == d0))) || ((c1 == 0 || (decide (1 < 3) && (c1 == c2)) || (decide (2 < 3) && (c1 == d1))) || ((c2 == 0 || (decide (2 < 3) && (c2 == c3)) || (decide (2 < 3) && (c2 == d2))) || ((c3 == 0 || (decide (3 < 3) && (c3 == 0)) || (decide (2 < 3) && (c3 == d3))) || false)))) || (((d0 == 0 || (decide (0 < 3) && (d0 == d1)) || (decide (3 < 3) && (d0 == 0))) || ((d1 == 0 || (decide (1 < 3) && (d1 == d2)) || (decide (3 < 3) && (d1 == 0))) || ((d2 == 0 || (decide (2 < 3) && (d2 == d3)) || (decide (3 < 3) && (d2 == 0))) || ((d3 == 0 || (decide (3 < 3) && (d3 == 0)) || (decide (3 < 3) && (d3 == 0))) || false)))) || false)))) := rfl

/-- A board is a well-formed 4×4 grid. -/
def dims4 (b : Board) : Prop := b.length = 4 ∧ ∀ r ∈ b, r.length = 4

instance (b : Board) : Decidable (dims4 b) := by unfold dims4; infer_instance

lemma length_eq_four {α : Type} {l : List α} :
    l.length = 4 ↔ ∃ a b c d, l = [a, b, c, d] :=
  ⟨fun _ => let [a, b, c, d] := l; ⟨a, b, c, d, rfl⟩,
   fun ⟨_, _, _, _, e⟩ => e ▸ rfl⟩

lemma dims4_cases {bd : Board} (h : dims4 bd) :
    ∃ a0 a1 a2 a3 b0 b1 b2 b3 c0 c1 c2 c3 d0 d1 d2 d3 : Nat,
      bd = [[a0, a1, a2, a3], [b0, b1, b2, b3], [c0, c1, c2, c3], [d0, d1, d2, d3]] := by
  obtain ⟨hlen, hrow⟩ := h
  obtain ⟨r0, r1, r2, r3, rfl⟩ := length_eq_four.mp hlen
  obtain ⟨a0, a1, a2, a3, rfl⟩ := length_eq_four.mp (hrow r0 (by simp))
  obtain ⟨b0, b1, b2, b3, rfl⟩ := length_eq_four.mp (hrow r1 (by simp))
  obtain ⟨c0, c1, c2, c3, rfl⟩ := length_eq_four.mp (hrow r2 (by simp))
  obtain ⟨d0, d1, d2, d3, rfl⟩ := length_eq_four.mp (hrow r3 (by simp))
  exact ⟨a0, a1, a2, a3, b0, b1, b2, b3, c0, c1, c2, c3, d0, d1, d2, d3, rfl⟩

lemma transpose_explicit (a0 a1 a2 a3 b0 b1 b2 b3 c0 c1 c2 c3 d0 d1 d2 d3 : Nat) :
    transpose [[a0, a1, a2, a3], [b0, b1, b2, b3], [c0, c1, c2, c3], [d0, d1, d2, d3]]
      = [[a0, b0, c0, d0], [a1, b1, c1, d1], [a2, b2, c2, d2], [a3, b3, c3, d3]] := rfl

lemma transpose_transpose {bd : Board} (h : dims4 bd) :
    transpose (transpose bd) = bd := by
  obtain ⟨a0, a1, a2, a3, b0, b1, b2, b3, c0, c1, c2, c3, d0, d1, d2, d3, rfl⟩ :=
    dims4_cases h
  rw [transpose_explicit, transpose_explicit]

lemma transpose_dims {bd : Board} (h : dims4 bd) : dims4 (transpose bd) := by
  obtain ⟨a0, a1, a2, a3, b0, b1, b2, b3, c0, c1, c2, c3, d0, d1, d2, d3, rfl⟩ :=
    dims4_cases h
  rw [transpose_explicit]
  refine ⟨rfl, ?_⟩
  intro r hr
  simp only [List.mem_cons, List.not_mem_nil, or_false] at hr
  rcases hr with rfl | rfl | rfl | rfl <;> rfl

lemma transpose_sum {bd : Board} (h : dims4 bd) :
    boardSum (transpose bd) = boardSum bd := by
  obtain ⟨a0, a1, a2, a3, b0, b1, b2, b3, c0, c1, c2, c3, d0, d1, d2, d3, rfl⟩ :=
    dims4_cases h
  rw [transpose_explicit]
  simp only [boardSum, List.map_cons, List.map_nil, List.sum_cons, List.sum_nil]
  omega

lemma reverse_dims {bd : Board} (h : dims4 bd) : dims4 (reverse bd) := by
  obtain ⟨hlen, hrow⟩ := h
  refine ⟨by simpa [reverse] using hlen, ?_⟩
  intro r hr
  simp only [reverse, List.mem_map] at hr
  obtain ⟨s, hs, rfl⟩ := hr
  simpa using hrow s hs

lemma moveLeft_dims {bd : Board} (h : dims4 bd) : dims4 (moveLeft bd).1 := by
  obtain ⟨hlen, hrow⟩ := h
  unfold moveLeft
  refine ⟨by simpa using hlen, ?_⟩
  intro r hr
  simp only [List.map_map, List.mem_map] at hr
  obtain ⟨s, hs, rfl⟩ := hr
  show ((merge (compress s)).1).length = 4
  exact merge_length _ (le_of_eq (compress_length s (le_of_eq (hrow s hs))))

lemma moveRight_dims {bd : Board} (h : dims4 bd) : dims4 (moveRight bd).1 := by
  unfold moveRight
  exact reverse_dims (moveLeft_dims (reverse_dims h))

lemma moveUp_sum {bd : Board} (h : dims4 bd) : boardSum (moveUp bd).1 = boardSum bd := by
  unfold moveUp
  simp only
  rw [transpose_sum (moveLeft_dims (transpose_dims h)), moveLeft_sum, transpose_sum h]

lemma moveDown_sum {bd : Board} (h : dims4 bd) : boardSum (moveDown bd).1 = boardSum bd := by
  unfold moveDown
  simp only
  rw [transpose_sum (moveRight_dims (transpose_dims h)), moveRight_sum, transpose_sum h]

end Game2048

namespace Game2048

/-! ## Claim theorems -/

/-- C1 (counterexample): the claim "the sum of all tile values strictly
increases by exactly `scoreDelta`" is false on the board
`[[2,2,0,0],[0,0,0,0],[0,0,0,0],[0,0,0,0]]` moved left: the new board sums
to 4, the old board sums to 4, but the score delta is 4, so
`newSum = oldSum + scoreDelta` fails (and nothing strictly increases). -/
theorem boardSum_not_plus_scoreDelta :
    ¬ (boardSum (resolve ([[2, 2, 0, 0], [0, 0, 0, 0], [0, 0, 0, 0], [0, 0, 0, 0]] : Board)
          Direction.left).1
        = boardSum ([[2, 2, 0, 0], [0, 0, 0, 0], [0, 0, 0, 0], [0, 0, 0, 0]] : Board)
          + (resolve ([[2, 2, 0, 0], [0, 0, 0, 0], [0, 0, 0, 0], [0, 0, 0, 0]] : Board)
              Direction.left).2) := by
  decide

/-- C1 (amended): for every 4×4 board and every direction, the sum of all
tile values is exactly conserved by a move: each merge replaces two tiles
of value `v` by one tile `2v` and an empty cell, so
`boardSum (resolve b d).newBoard = boardSum b` (the score delta, the sum
of the merge products, is reported separately and does not change the
total). -/
theorem resolve_boardSum_conserved (bd : Board) (h : dims4 bd) (d : Direction) :
    boardSum (resolve bd d).1 = boardSum bd := by
  cases d with
  | up => exact moveUp_sum h
  | down => exact moveDown_sum h
  | left => exact moveLeft_sum bd
  | right => exact moveRight_sum bd

/-- Witness for C1's amended theorem at a concrete board and direction. -/
theorem resolve_boardSum_conserved_witness :
    dims4 ([[2, 2, 0, 0], [0, 4, 4, 0], [0, 0, 0, 0], [2, 0, 0, 2]] : Board)
      ∧ boardSum (resolve ([[2, 2, 0, 0], [0, 4, 4, 0], [0, 0, 0, 0], [2, 0, 0, 2]] : Board)
          Direction.up).1
        = boardSum ([[2, 2, 0, 0], [0, 4, 4, 0], [0, 0, 0, 0], [2, 0, 0, 2]] : Board) :=
  ⟨by decide,
   resolve_boardSum_conserved
     ([[2, 2, 0, 0], [0, 4, 4, 0], [0, 0, 0, 0], [2, 0, 0, 2]] : Board)
     (by decide) Direction.up⟩

/-- C2: the Line Reducer (compress then merge, as `moveLeft` applies to
each row) obeys the single-pass no-revisit rule: `[2,2,2,0]` reduces to
`[4,2,0,0]` with score delta 4 (only the first pair merges) and
`[2,2,2,2]` reduces to `[4,4,0,0]` with score delta 8 (two independent
pairs). -/
theorem lineReducer_no_revisit :
    merge (compress [2, 2, 2, 0]) = ([4, 2, 0, 0], 4)
      ∧ merge (compress [2, 2, 2, 2]) = ([4, 4, 0, 0], 8)
      ∧ moveLeft ([[2, 2, 2, 0], [2, 2, 2, 2], [0, 0, 0, 0], [0, 0, 0, 0]] : Board)
          = ([[4, 2, 0, 0], [4, 4, 0, 0], [0, 0, 0, 0], [0, 0, 0, 0]], 12) := by
  decide

/-- C9: the orientation adapters are self-inverse on every 4×4 board:
`transpose (transpose bd) = bd` and `reverse (reverse bd) = bd`. -/
theorem adapters_involutive (bd : Board) (h : dims4 bd) :
    transpose (transpose bd) = bd ∧ reverse (reverse bd) = bd := by
  refine ⟨transpose_transpose h, ?_⟩
  unfold reverse
  rw [List.map_map]
  simp

/-- Witness for C9 at a concrete board. -/
theorem adapters_involutive_witness :
    dims4 ([[2, 4, 8, 16], [0, 2, 0, 4], [32, 0, 2, 0], [4, 8, 0, 2]] : Board)
      ∧ transpose (transpose ([[2, 4, 8, 16], [0, 2, 0, 4], [32, 0, 2, 0], [4, 8, 0, 2]] : Board))
          = ([[2, 4, 8, 16], [0, 2, 0, 4], [32, 0, 2, 0], [4, 8, 0, 2]] : Board)
      ∧ reverse (reverse ([[2, 4, 8, 16], [0, 2, 0, 4], [32, 0, 2, 0], [4, 8, 0, 2]] : Board))
          = ([[2, 4, 8, 16], [0, 2, 0, 4], [32, 0, 2, 0], [4, 8, 0, 2]] : Board) :=
  ⟨by decide,
   adapters_involutive ([[2, 4, 8, 16], [0, 2, 0, 4], [32, 0, 2, 0], [4, 8, 0, 2]] : Board)
     (by decide)⟩

/-- C3 (counterexample): on a direction value outside the four supported
ones, the move dispatch does not fail with an `InvalidDirection` error:
the `switch` in `handleMove` has no `default` case, so `result` stays
undefined and the destructuring throws a TypeError instead. -/
theorem unknown_direction_not_invalidDirection :
    resolveStr ([[0, 0, 0, 0], [0, 0, 0, 0], [0, 0, 0, 0], [0, 0, 0, 0]] : Board) "diagonal"
        = Except.error EngineError.typeErrorUndefined
      ∧ resolveStr ([[0, 0, 0, 0], [0, 0, 0, 0], [0, 0, 0, 0], [0, 0, 0, 0]] : Board) "diagonal"
        ≠ Except.error EngineError.invalidDirection := by
  exact ⟨rfl, by decide⟩

/-- C3 (amended): for every direction value outside
{"up", "down", "left", "right"} the move dispatch produces no result —
the `switch` falls through, leaving `result` undefined, and the
destructuring of `result` throws a TypeError (modelled as
`typeErrorUndefined`); no structured `InvalidDirection` failure exists in
the code. -/
theorem unknown_direction_typeError (bd : Board) (d : String)
    (h : d ∉ (["up", "down", "left", "right"] : List String)) :
    resolveStr bd d = Except.error EngineError.typeErrorUndefined := by
  unfold resolveStr
  split
  · exact absurd (by simp_all) h
  · exact absurd (by simp_all) h
  · exact absurd (by simp_all) h
  · exact absurd (by simp_all) h
  · rfl

/-- Witness for C3's amended theorem at a concrete direction string. -/
theorem unknown_direction_typeError_witness :
    ("diagonal" ∉ (["up", "down", "left", "right"] : List String))
      ∧ resolveStr ([[0, 0, 0, 0], [0, 0, 0, 0], [0, 0, 0, 0], [0, 0, 0, 2]] : Board) "diagonal"
          = Except.error EngineError.typeErrorUndefined :=
  ⟨by decide,
   unknown_direction_typeError
     ([[0, 0, 0, 0], [0, 0, 0, 0], [0, 0, 0, 0], [0, 0, 0, 2]] : Board) "diagonal" (by decide)⟩

/-- C8 (counterexample): a wrong-dimension board does not make the engine
fail with an `InvalidBoard` error; the operations simply run and produce
a defined output.  On the 2×2 board `[[2,2],[0,0]]`, a left move returns
the board `[[4,0,0,0],[0,0,0,0]]` (the `while` padding in `compress`
lengthens every processed row to 4) with score delta 4. -/
theorem wrong_dimension_board_defined_output :
    resolveStr ([[2, 2], [0, 0]] : Board) "left"
        = Except.ok (([[4, 0, 0, 0], [0, 0, 0, 0]] : Board), 4)
      ∧ resolveStr ([[2, 2], [0, 0]] : Board) "left"
        ≠ Except.error EngineError.invalidBoard := by
  exact ⟨by decide, by decide⟩

/-- C8 (amended): the engine never checks board dimensions: for every
board (of any shape) and every direction string, the move dispatch never
fails with an `InvalidBoard` error — it either produces a defined
`(newBoard, scoreDelta)` result or, for an unrecognised direction, the
undefined-result TypeError. -/
theorem resolveStr_never_invalidBoard (bd : Board) (d : String) :
    resolveStr bd d ≠ Except.error EngineError.invalidBoard := by
  unfold resolveStr
  split <;> simp

end Game2048

namespace Game2048

set_option maxHeartbeats 1000000 in
/-- C5: `hasMoves` on a 4×4 board is true exactly when some cell is 0, or
some cell equals its right neighbour in the same row, or some cell equals
the cell directly below it in the same column (spelled out over the 16
cells); in particular a board with a zero cell yields true and a fully
filled board with no adjacent equal pair yields false. -/
theorem hasMoves_iff (a0 a1 a2 a3 b0 b1 b2 b3 c0 c1 c2 c3 d0 d1 d2 d3 : Nat) :
    hasMoves [[a0, a1, a2, a3], [b0, b1, b2, b3], [c0, c1, c2, c3], [d0, d1, d2, d3]] = true
      ↔ ((a0 = 0 ∨ a1 = 0 ∨ a2 = 0 ∨ a3 = 0)
          ∨ (b0 = 0 ∨ b1 = 0 ∨ b2 = 0 ∨ b3 = 0)
          ∨ (c0 = 0 ∨ c1 = 0 ∨ c2 = 0 ∨ c3 = 0)
          ∨ (d0 = 0 ∨ d1 = 0 ∨ d2 = 0 ∨ d3 = 0))
        ∨ ((a0 = a1 ∨ a1 = a2 ∨ a2 = a3)
          ∨ (b0 = b1 ∨ b1 = b2 ∨ b2 = b3)
          ∨ (c0 = c1 ∨ c1 = c2 ∨ c2 = c3)
          ∨ (d0 = d1 ∨ d1 = d2 ∨ d2 = d3))
        ∨ ((a0 = b0 ∨ b0 = c0 ∨ c0 = d0)
          ∨ (a1 = b1 ∨ b1 = c1 ∨ c1 = d1)
          ∨ (a2 = b2 ∨ b2 = c2 ∨ c2 = d2)
          ∨ (a3 = b3 ∨ b3 = c3 ∨ c3 = d3)) := by
  rw [hasMoves_explicit]
  simp
  tauto

end Game2048

namespace Game2048

/-- A row is packed to the left: to the right of any zero entry there are
only zeros, i.e. no zero appears to the left of a non-zero entry. -/
def packed (row : List Nat) : Prop :=
  ∀ i j, i < j → j < row.length → row.getD i 0 = 0 → row.getD j 0 = 0

lemma getD_replicate_zero (n m : Nat) : (List.replicate n (0 : Nat)).getD m 0 = 0 := by
  by_cases h : m < n
  · rw [List.getD_eq_getElem _ _ (by simpa using h)]
    exact List.getElem_replicate ..
  · exact List.getD_eq_default _ _ (by simpa using Nat.le_of_not_lt h)

lemma compress_packed (r : List Nat) : packed (compress r) := by
  intro i j hij hj hzi
  unfold compress at hzi hj ⊢
  by_cases hi : i < (r.filter (fun v => v ≠ 0)).length
  · exfalso
    rw [List.getD_append _ _ _ _ hi, List.getD_eq_getElem _ _ hi] at hzi
    have hmem : (r.filter (fun v => v ≠ 0))[i] ∈ r.filter (fun v => v ≠ 0) :=
      List.getElem_mem _
    have hp := List.of_mem_filter hmem
    rw [hzi] at hp
    exact absurd hp (by decide)
  · have hjge : (r.filter (fun v => v ≠ 0)).length ≤ j :=
      le_trans (Nat.le_of_not_lt hi) (le_of_lt hij)
    rw [List.getD_append_right _ _ _ _ hjge]
    exact getD_replicate_zero ..

lemma filter_ne_zero_idem (l : List Nat) :
    (l.filter (fun v => v ≠ 0)).filter (fun v => v ≠ 0) = l.filter (fun v => v ≠ 0) := by
  apply List.filter_eq_self.mpr
  intro a ha
  exact (List.mem_filter.mp ha).2

lemma filter_ne_zero_replicate_zero (n : Nat) :
    (List.replicate n (0 : Nat)).filter (fun v => v ≠ 0) = [] := by
  induction n with
  | zero => rfl
  | succ m ih => simp [List.replicate_succ, List.filter_cons, ih]

lemma compress_compress (r : List Nat) : compress (compress r) = compress r := by
  unfold compress
  simp only [List.filter_append, filter_ne_zero_idem, filter_ne_zero_replicate_zero,
    List.append_nil]

lemma moveLeft_rows_compress (b : Board) :
    ∀ r ∈ (moveLeft b).1, ∃ s, r = compress s := by
  intro r hr
  unfold moveLeft at hr
  simp only [List.map_map, List.mem_map, Function.comp] at hr
  obtain ⟨row, _, rfl⟩ := hr
  exact ⟨_, merge_fst (compress row)⟩

/-- C10: after a left move every row is packed against the left edge
(no zero to the left of a non-zero entry, equivalently every output row is
a fixed point of `compress`); correspondingly a right move packs every
row against the right edge (its reversal is packed left), an up move packs
every column (row of the transpose) against the top, and a down move packs
every column against the bottom. -/
theorem moves_pack (bd : Board) (h : dims4 bd) :
    (∀ r ∈ (moveLeft bd).1, packed r ∧ compress r = r)
      ∧ (∀ r ∈ (moveRight bd).1, packed r.reverse)
      ∧ (∀ col ∈ transpose (moveUp bd).1, packed col)
      ∧ (∀ col ∈ transpose (moveDown bd).1, packed col.reverse) := by
  refine ⟨?_, ?_, ?_, ?_⟩
  · intro r hr
    obtain ⟨s, rfl⟩ := moveLeft_rows_compress bd r hr
    exact ⟨compress_packed s, compress_compress s⟩
  · intro r hr
    unfold moveRight reverse at hr
    simp only [List.mem_map] at hr
    obtain ⟨s, hs, rfl⟩ := hr
    obtain ⟨u, rfl⟩ := moveLeft_rows_compress _ s hs
    rw [List.reverse_reverse]
    exact compress_packed u
  · intro col hcol
    unfold moveUp at hcol
    rw [transpose_transpose (moveLeft_dims (transpose_dims h))] at hcol
    obtain ⟨u, rfl⟩ := moveLeft_rows_compress _ col hcol
    exact compress_packed u
  · intro col hcol
    unfold moveDown at hcol
    rw [transpose_transpose (moveRight_dims (transpose_dims h))] at hcol
    unfold moveRight reverse at hcol
    simp only [List.mem_map] at hcol
    obtain ⟨s, hs, rfl⟩ := hcol
    obtain ⟨u, rfl⟩ := moveLeft_rows_compress _ s hs
    rw [List.reverse_reverse]
    exact compress_packed u

/-- Witness for C10 at a concrete board. -/
theorem moves_pack_witness :
    dims4 ([[0, 2, 0, 2], [4, 0, 4, 0], [0, 0, 2, 2], [8, 4, 0, 4]] : Board)
      ∧ ∀ r ∈ (moveLeft ([[0, 2, 0, 2], [4, 0, 4, 0], [0, 0, 2, 2], [8, 4, 0, 4]] : Board)).1,
          packed r ∧ compress r = r :=
  ⟨by decide,
   (moves_pack ([[0, 2, 0, 2], [4, 0, 4, 0], [0, 0, 2, 2], [8, 4, 0, 4]] : Board)
     (by decide)).1⟩

end Game2048

namespace Game2048

/-- The `merge` loop unrolled as a pair: three `mergeStep`s chained, the
score delta accumulated, then a final `compress`. -/
lemma merge_unfold (row : List Nat) :
    merge row
      = (compress (mergeStep (mergeStep (mergeStep row 0).1 1).1 2).1,
         0 + (mergeStep row 0).2 + (mergeStep (mergeStep row 0).1 1).2
           + (mergeStep (mergeStep (mergeStep row 0).1 1).1 2).2) := rfl

/-- A fully occupied line with no adjacent equal pair is left unchanged by
the Line Reducer, with score delta 0. -/
lemma noMoveRow (x y z w : Nat) (hx : x ≠ 0) (hy : y ≠ 0) (hz : z ≠ 0) (hw : w ≠ 0)
    (hxy : x ≠ y) (hyz : y ≠ z) (hzw : z ≠ w) :
    merge (compress [x, y, z, w]) = ([x, y, z, w], 0) := by
  have hc : compress [x, y, z, w] = [x, y, z, w] := by
    simp [compress, hx, hy, hz, hw, BOARD_SIZE]
  have h0 : mergeStep [x, y, z, w] 0 = ([x, y, z, w], 0) := by
    simp [mergeStep, hxy]
  have h1 : mergeStep [x, y, z, w] 1 = ([x, y, z, w], 0) := by
    simp [mergeStep, hyz]
  have h2 : mergeStep [x, y, z, w] 2 = ([x, y, z, w], 0) := by
    simp [mergeStep, hzw]
  rw [hc]
  simp [merge_unfold, h0, h1, h2, hc]

set_option maxHeartbeats 1000000 in
/-- C4: on a 4×4 board with `hasMoves = false` (no empty cell and no
adjacent equal pair), every one of the four moves returns the board
structurally unchanged with score delta 0. -/
theorem noMoves_resolve_id (bd : Board) (h : dims4 bd)
    (hnm : hasMoves bd = false) (d : Direction) : resolve bd d = (bd, 0) := by
  obtain ⟨a0, a1, a2, a3, b0, b1, b2, b3, c0, c1, c2, c3, d0, d1, d2, d3, rfl⟩ :=
    dims4_cases h
  rw [hasMoves_explicit] at hnm
  simp at hnm
  obtain ⟨⟨⟨⟨ha0, ha01⟩, hab0⟩, ⟨⟨ha1, ha12⟩, hab1⟩, ⟨⟨ha2, ha23⟩, hab2⟩, ha3, hab3⟩,
    ⟨⟨⟨hb0, hb01⟩, hbc0⟩, ⟨⟨hb1, hb12⟩, hbc1⟩, ⟨⟨hb2, hb23⟩, hbc2⟩, hb3, hbc3⟩,
    ⟨⟨⟨hc0, hc01⟩, hcd0⟩, ⟨⟨hc1, hc12⟩, hcd1⟩, ⟨⟨hc2, hc23⟩, hcd2⟩, hc3, hcd3⟩,
    ⟨hd0, hd01⟩, ⟨hd1, hd12⟩, ⟨hd2, hd23⟩, hd3⟩ := hnm
  cases d with
  | left =>
    have hL0 := noMoveRow a0 a1 a2 a3 ha0 ha1 ha2 ha3 ha01 ha12 ha23
    have hL1 := noMoveRow b0 b1 b2 b3 hb0 hb1 hb2 hb3 hb01 hb12 hb23
    have hL2 := noMoveRow c0 c1 c2 c3 hc0 hc1 hc2 hc3 hc01 hc12 hc23
    have hL3 := noMoveRow d0 d1 d2 d3 hd0 hd1 hd2 hd3 hd01 hd12 hd23
    simp [resolve, moveLeft, hL0, hL1, hL2, hL3]
  | right =>
    have hR0 := noMoveRow a3 a2 a1 a0 ha3 ha2 ha1 ha0 (Ne.symm ha23) (Ne.symm ha12) (Ne.symm ha01)
    have hR1 := noMoveRow b3 b2 b1 b0 hb3 hb2 hb1 hb0 (Ne.symm hb23) (Ne.symm hb12) (Ne.symm hb01)
    have hR2 := noMoveRow c3 c2 c1 c0 hc3 hc2 hc1 hc0 (Ne.symm hc23) (Ne.symm hc12) (Ne.symm hc01)
    have hR3 := noMoveRow d3 d2 d1 d0 hd3 hd2 hd1 hd0 (Ne.symm hd23) (Ne.symm hd12) (Ne.symm hd01)
    simp [resolve, moveRight, moveLeft, reverse, hR0, hR1, hR2, hR3]
  | up =>
    have hU0 := noMoveRow a0 b0 c0 d0 ha0 hb0 hc0 hd0 hab0 hbc0 hcd0
    have hU1 := noMoveRow a1 b1 c1 d1 ha1 hb1 hc1 hd1 hab1 hbc1 hcd1
    have hU2 := noMoveRow a2 b2 c2 d2 ha2 hb2 hc2 hd2 hab2 hbc2 hcd2
    have hU3 := noMoveRow a3 b3 c3 d3 ha3 hb3 hc3 hd3 hab3 hbc3 hcd3
    simp [resolve, moveUp, moveLeft, transpose_explicit, hU0, hU1, hU2, hU3]
  | down =>
    have hD0 := noMoveRow d0 c0 b0 a0 hd0 hc0 hb0 ha0 (Ne.symm hcd0) (Ne.symm hbc0) (Ne.symm hab0)
    have hD1 := noMoveRow d1 c1 b1 a1 hd1 hc1 hb1 ha1 (Ne.symm hcd1) (Ne.symm hbc1) (Ne.symm hab1)
    have hD2 := noMoveRow d2 c2 b2 a2 hd2 hc2 hb2 ha2 (Ne.symm hcd2) (Ne.symm hbc2) (Ne.symm hab2)
    have hD3 := noMoveRow d3 c3 b3 a3 hd3 hc3 hb3 ha3 (Ne.symm hcd3) (Ne.symm hbc3) (Ne.symm hab3)
    simp [resolve, moveDown, moveRight, moveLeft, reverse, transpose_explicit,
      hD0, hD1, hD2, hD3]

/-- Witness for C4 at a concrete terminal board. -/
theorem noMoves_resolve_id_witness :
    dims4 ([[2, 4, 2, 4], [4, 2, 4, 2], [2, 4, 2, 4], [4, 2, 4, 2]] : Board)
      ∧ hasMoves ([[2, 4, 2, 4], [4, 2, 4, 2], [2, 4, 2, 4], [4, 2, 4, 2]] : Board) = false
      ∧ resolve ([[2, 4, 2, 4], [4, 2, 4, 2], [2, 4, 2, 4], [4, 2, 4, 2]] : Board) Direction.down
          = (([[2, 4, 2, 4], [4, 2, 4, 2], [2, 4, 2, 4], [4, 2, 4, 2]] : Board), 0) :=
  ⟨by decide, by decide,
   noMoves_resolve_id ([[2, 4, 2, 4], [4, 2, 4, 2], [2, 4, 2, 4], [4, 2, 4, 2]] : Board)
     (by decide) (by decide) Direction.down⟩

end Game2048

namespace Game2048

lemma mem_emptyCells (bd : Board) (r c : Nat) :
    (r, c) ∈ emptyCells bd
      ↔ r < bd.length ∧ c < (bd.getD r []).length ∧ cell bd r c = 0 := by
  unfold emptyCells
  simp only [List.mem_flatten, List.mem_map, List.mem_filter, List.mem_range]
  constructor
  · rintro ⟨l, ⟨r', hr', rfl⟩, hmem⟩
    obtain ⟨c', hc', heq⟩ := List.mem_map.mp hmem
    obtain ⟨hcr, hz⟩ := List.mem_filter.mp hc'
    cases heq
    exact ⟨hr', List.mem_range.mp hcr, by simpa using hz⟩
  · rintro ⟨hr, hc, h0⟩
    refine ⟨_, ⟨r, hr, rfl⟩, List.mem_map.mpr ⟨c, List.mem_filter.mpr ⟨?_, ?_⟩, rfl⟩⟩
    · exact List.mem_range.mpr hc
    · simpa using h0

lemma getD_cons_mem {α : Type _} (e : α) (es : List α) (i : Nat) :
    (e :: es).getD i e ∈ e :: es := by
  by_cases h : i < (e :: es).length
  · rw [List.getD_eq_getElem _ _ h]
    exact List.getElem_mem _
  · rw [List.getD_eq_default _ _ (Nat.le_of_not_lt h)]
    exact List.mem_cons_self e es

/-- C7: on a board with no empty (zero) cell, `addRandomTile` is a total
no-op: it returns the board unchanged, and never an error. -/
theorem spawn_full_noop (bd : Board) (k : Nat) (four : Bool)
    (h : ∀ r < bd.length, ∀ c < (bd.getD r []).length, cell bd r c ≠ 0) :
    addRandomTile bd k four = bd := by
  have he : emptyCells bd = [] := by
    cases hec : emptyCells bd with
    | nil => rfl
    | cons e es =>
      exfalso
      have hmem : e ∈ emptyCells bd := hec ▸ List.mem_cons_self e es
      have h2 := (mem_emptyCells bd e.1 e.2).mp (by simpa using hmem)
      exact h e.1 h2.1 e.2 h2.2.1 h2.2.2
  simp [addRandomTile, he]

/-- Witness for C7 at a concrete full board. -/
theorem spawn_full_noop_witness :
    (∀ r < ([[2, 4], [8, 16]] : Board).length,
        ∀ c < (([[2, 4], [8, 16]] : Board).getD r []).length,
          cell [[2, 4], [8, 16]] r c ≠ 0)
      ∧ addRandomTile [[2, 4], [8, 16]] 0 true = [[2, 4], [8, 16]] :=
  ⟨by decide, spawn_full_noop [[2, 4], [8, 16]] 0 true (by decide)⟩

/-- C6: on a board with at least one empty (zero) cell, `addRandomTile`
changes exactly one cell: that cell was 0 and becomes 2 or 4, and every
other cell keeps its value. -/
theorem spawn_frame (bd : Board) (k : Nat) (four : Bool)
    (h : ∃ r < bd.length, ∃ c < (bd.getD r []).length, cell bd r c = 0) :
    ∃ r < bd.length, ∃ c < (bd.getD r []).length,
      cell bd r c = 0
        ∧ (cell (addRandomTile bd k four) r c = 2 ∨ cell (addRandomTile bd k four) r c = 4)
        ∧ ∀ r' c', ¬(r' = r ∧ c' = c) →
            cell (addRandomTile bd k four) r' c' = cell bd r' c' := by
  cases hec : emptyCells bd with
  | nil =>
    exfalso
    obtain ⟨r, hr, c, hc, h0⟩ := h
    have : (r, c) ∈ emptyCells bd := (mem_emptyCells bd r c).mpr ⟨hr, hc, h0⟩
    rw [hec] at this
    exact List.not_mem_nil _ this
  | cons e es =>
    have hval : addRandomTile bd k four
        = bd.set ((e :: es).getD (k % (e :: es).length) e).1
            ((bd.getD ((e :: es).getD (k % (e :: es).length) e).1 []).set
              ((e :: es).getD (k % (e :: es).length) e).2 (if four then 4 else 2)) := by
      simp [addRandomTile, hec]
    set p := (e :: es).getD (k % (e :: es).length) e with hp
    have hpmem : p ∈ emptyCells bd := by
      rw [hec]
      exact getD_cons_mem e es _
    have h2 := (mem_emptyCells bd p.1 p.2).mp (by simpa using hpmem)
    obtain ⟨hr, hc, h0⟩ := h2
    refine ⟨p.1, hr, p.2, hc, h0, ?_, ?_⟩
    · rw [hval]
      unfold cell
      rw [getD_set_self bd hr, getD_set_self _ hc]
      cases four
      · exact Or.inl rfl
      · exact Or.inr rfl
    · intro r' c' hne
      rw [hval]
      unfold cell
      by_cases hr' : r' = p.1
      · subst hr'
        have hc' : c' ≠ p.2 := fun hh => hne ⟨rfl, hh⟩
        rw [getD_set_self bd hr, getD_set_ne _ (Ne.symm hc')]
      · rw [getD_set_ne bd (Ne.symm hr')]

/-- Witness for C6 at a concrete board with empty cells. -/
theorem spawn_frame_witness :
    (∃ r < ([[2, 0], [2, 2]] : Board).length,
        ∃ c < (([[2, 0], [2, 2]] : Board).getD r []).length, cell [[2, 0], [2, 2]] r c = 0)
      ∧ ∃ r < ([[2, 0], [2, 2]] : Board).length,
          ∃ c < (([[2, 0], [2, 2]] : Board).getD r []).length,
            cell [[2, 0], [2, 2]] r c = 0
              ∧ (cell (addRandomTile [[2, 0], [2, 2]] 5 false) r c = 2
                  ∨ cell (addRandomTile [[2, 0], [2, 2]] 5 false) r c = 4)
              ∧ ∀ r' c', ¬(r' = r ∧ c' = c) →
                  cell (addRandomTile [[2, 0], [2, 2]] 5 false) r' c'
                    = cell [[2, 0], [2, 2]] r' c' :=
  ⟨by decide, spawn_frame [[2, 0], [2, 2]] 5 false (by decide)⟩

end Game2048
